import Mathlib

/-!
Verification of the task lifecycle and reminder-scheduling subsystem of the
meeting-summary application (sources: `task_manager.py`, `db.py`,
`ollama_nlp.py`).  The Python code is shallowly embedded: the Mongo-backed
task store becomes an association list threaded through every operation, the
APScheduler job registry becomes a list of job keys, and `datetime.utcnow()`
becomes an explicit `DateTime` parameter.  All definitions are translated
from the source files; theorems at the end settle the specification claims.
-/

namespace MeetingTasks

/-! ### Calendar dates (proleptic Gregorian, as used by Python `datetime`) -/

/-- A calendar date, mirroring the date part of Python `datetime`. -/
structure Date where
  year : Nat
  month : Nat
  day : Nat
deriving DecidableEq

/-- Gregorian leap-year rule (as implemented by Python `datetime`). -/
def isLeapYear (y : Nat) : Bool :=
  (y % 4 == 0 && y % 100 != 0) || y % 400 == 0

/-- Number of days in a month. -/
def daysInMonth (y m : Nat) : Nat :=
  if m == 1 || m == 3 || m == 5 || m == 7 || m == 8 || m == 10 || m == 12 then 31
  else if m == 4 || m == 6 || m == 9 || m == 11 then 30
  else if isLeapYear y then 29
  else 28

/-- The next calendar day. -/
def Date.next (d : Date) : Date :=
  if d.day < daysInMonth d.year d.month then ⟨d.year, d.month, d.day + 1⟩
  else if d.month < 12 then ⟨d.year, d.month + 1, 1⟩
  else ⟨d.year + 1, 1, 1⟩

/-- The previous calendar day. -/
def Date.prev (d : Date) : Date :=
  if 1 < d.day then ⟨d.year, d.month, d.day - 1⟩
  else if 1 < d.month then ⟨d.year, d.month - 1, daysInMonth d.year (d.month - 1)⟩
  else ⟨d.year - 1, 12, 31⟩

/-- `d + timedelta(days := n)` for a `Nat` number of days. -/
def Date.addDays (d : Date) : Nat → Date
  | 0 => d
  | n + 1 => (d.addDays n).next

/-- `d - timedelta(days := n)` for a `Nat` number of days. -/
def Date.subDays (d : Date) : Nat → Date
  | 0 => d
  | n + 1 => (d.subDays n).prev

/-- Strict lexicographic order on dates (`datetime.date` comparison). -/
def Date.ltb (a b : Date) : Bool :=
  a.year < b.year ||
    (a.year == b.year && (a.month < b.month ||
      (a.month == b.month && a.day < b.day)))

/-- Non-strict date comparison (`datetime.date` comparison). -/
def Date.leb (a b : Date) : Bool :=
  a.ltb b || a == b

/-! ### Formatting: `strftime('%Y-%m-%d')` -/

/-- The ASCII digit character for `n % 10`. -/
def digitChar (n : Nat) : Char :=
  Char.ofNat (48 + n % 10)

/-- Two zero-padded decimal digits (`%m` / `%d` for values below 100). -/
def pad2Chars (n : Nat) : List Char :=
  [digitChar (n / 10), digitChar n]

/-- Four zero-padded decimal digits (`%Y` for values below 10000). -/
def pad4Chars (n : Nat) : List Char :=
  [digitChar (n / 1000), digitChar (n / 100), digitChar (n / 10), digitChar n]

/-- Character sequence of `strftime('%Y-%m-%d')`. -/
def Date.formatChars (d : Date) : List Char :=
  pad4Chars d.year ++ '-' :: pad2Chars d.month ++ '-' :: pad2Chars d.day

/-- `strftime('%Y-%m-%d')`: the `YYYY-MM-DD` rendering of a date. -/
def Date.format (d : Date) : String :=
  (Date.formatChars d).asString

/-! ### Parsing: `strptime(s, '%Y-%m-%d')` -/

/-- Split a character list into the groups between dashes. -/
def splitDash : List Char → List (List Char)
  | [] => [[]]
  | c :: rest =>
      match splitDash rest with
      | [] => [[]]
      | g :: gs => if c == '-' then [] :: g :: gs else (c :: g) :: gs

/-- The decimal value of an ASCII digit. -/
def digitVal (c : Char) : Option Nat :=
  if 48 ≤ c.toNat && c.toNat ≤ 57 then some (c.toNat - 48) else none

/-- Decimal reading of a digit group, `none` on a non-digit. -/
def charsToNatAux : List Char → Nat → Option Nat
  | [], acc => some acc
  | c :: cs, acc =>
      match digitVal c with
      | some v => charsToNatAux cs (acc * 10 + v)
      | none => none

/-- Decimal reading of a non-empty digit group. -/
def charsToNat (cs : List Char) : Option Nat :=
  match cs with
  | [] => none
  | _ :: _ => charsToNatAux cs 0

/-- `strptime(s, '%Y-%m-%d')`, returning `none` where Python raises
`ValueError`.  Requires three dash-separated decimal fields forming a valid
calendar date. -/
def parseDate (s : String) : Option Date :=
  match splitDash s.data with
  | [ys, ms, ds] =>
      match charsToNat ys, charsToNat ms, charsToNat ds with
      | some y, some m, some d =>
          if 1 ≤ m && m ≤ 12 && 1 ≤ d && d ≤ daysInMonth y m then
            some ⟨y, m, d⟩
          else none
      | _, _, _ => none
  | _ => none

/-! ### Instants (`datetime.utcnow()` values)

A `DateTime` is a calendar date together with a tick counting the instant
within the day (Python stores hours/minutes/seconds/microseconds; only their
relative order matters here, with `tick = 0` standing for midnight, the time
`strptime` assigns to parsed dates). -/

structure DateTime where
  date : Date
  tick : Nat
deriving DecidableEq

/-- Strict comparison of instants, date first then intra-day tick. -/
def DateTime.ltb (a b : DateTime) : Bool :=
  a.date.ltb b.date || (a.date == b.date && a.tick < b.tick)

/-- The midnight instant of a date (what `strptime('%Y-%m-%d')` yields). -/
def Date.midnight (d : Date) : DateTime :=
  ⟨d, 0⟩

/-! ### Python string primitives -/

/-- The characters Python `str.strip()` removes. -/
def isPyWhitespace (c : Char) : Bool :=
  c == ' ' || c == '\t' || c == '\n' || c == '\x0d' || c == '\x0b' || c == '\x0c'

/-- Python `str.strip()`: drop leading and trailing whitespace. -/
def pyStrip (s : String) : String :=
  (((s.data.dropWhile isPyWhitespace).reverse.dropWhile isPyWhitespace).reverse).asString

/-- Python `str.lower()` (ASCII case folding suffices for this code base). -/
def pyLower (s : String) : String :=
  (s.data.map Char.toLower).asString

/-- `startsWithChars needle hay`: does `hay` start with `needle`? -/
def startsWithChars : List Char → List Char → Bool
  | [], _ => true
  | _ :: _, [] => false
  | a :: as, b :: bs => a == b && startsWithChars as bs

/-- Python `needle in hay` substring test, on character lists. -/
def hasSubChars (needle : List Char) : List Char → Bool
  | [] => startsWithChars needle []
  | c :: cs => startsWithChars needle (c :: cs) || hasSubChars needle cs

/-- Python `needle in hay` on strings. -/
def strHasSub (hay needle : String) : Bool :=
  hasSubChars needle.data hay.data

/-- Strict character comparison by code point (for the ASCII date strings
this code compares, identical to Mongo's byte order). -/
def charLtb (a b : Char) : Bool :=
  decide (a.toNat < b.toNat)

/-- Lexicographic comparison of character lists. -/
def charListLt : List Char → List Char → Bool
  | _, [] => false
  | [], _ :: _ => true
  | a :: as, b :: bs => charLtb a b || (a == b && charListLt as bs)

/-- Mongo's `$lt` on strings: strict lexicographic comparison. -/
def strLtb (a b : String) : Bool :=
  charListLt a.data b.data

/-- Mongo's `$lte`/sort comparison on strings. -/
def strLeb (a b : String) : Bool :=
  !(strLtb b a)

/-! ### Data model

A raw action item as handed to `TaskManager.create_task`: a Python dict
whose keys may be absent (`none`).  An explicit Python `None` value and an
absent key behave identically under every `dict.get` in the embedded code
paths, so `none` covers both. -/

structure RawItem where
  task : Option String
  assignee : Option String
  priority : Option String
  context : Option String
  transcript_id : Option String
  suggested_deadline : Option String
  actual_deadline : Option String
deriving DecidableEq

/-- A raw item with every field absent; concrete items are built from it. -/
def emptyItem : RawItem :=
  ⟨none, none, none, none, none, none, none⟩

/-- A persisted task document, as built by `TaskManager.create_task` and
stored by `DatabaseManager.save_task`.  After creation `actual_deadline` is
always a string, so it is not optional here. -/
structure TaskDoc where
  task : String
  assignee : String
  priority : String
  context : String
  status : String
  meeting_id : Option String
  transcript_id : Option String
  suggested_deadline : Option String
  actual_deadline : String
  created_at : DateTime
  updated_at : DateTime
deriving DecidableEq

/-- An update dict passed to `TaskManager.update_task` (`$set` payload).
The embedded code paths only ever patch these three fields. -/
structure Patch where
  status : Option String
  actual_deadline : Option String
  updated_at : Option DateTime
deriving DecidableEq

/-- The patch with no fields, for building concrete patches. -/
def emptyPatch : Patch :=
  ⟨none, none, none⟩

/-- Mongo `$set` applied to one document. -/
def applyPatch (d : TaskDoc) (p : Patch) : TaskDoc :=
  { d with
    status := p.status.getD d.status
    actual_deadline := p.actual_deadline.getD d.actual_deadline
    updated_at := p.updated_at.getD d.updated_at }

/-! ### The task store (Mongo `tasks` collection) -/

/-- The `tasks` collection: documents keyed by id, plus the next fresh id. -/
structure Store where
  docs : List (Nat × TaskDoc)
  nextId : Nat
deriving DecidableEq

/-- The empty collection. -/
def emptyStore : Store :=
  ⟨[], 0⟩

/-- Mongo `insert_one`: returns the inserted id and the new collection. -/
def insertOne (st : Store) (d : TaskDoc) : Nat × Store :=
  (st.nextId, ⟨st.docs ++ [(st.nextId, d)], st.nextId + 1⟩)

/-- Mongo `find_one({'_id': id})`. -/
def findDoc (st : Store) (id : Nat) : Option TaskDoc :=
  (st.docs.find? (fun p => p.1 == id)).map Prod.snd

/-- Mongo `update_one({'_id': id}, {'$set': patch})`: the `modified_count`
(`0` when no document matched or every patched value already equals the
stored value) and the new collection. -/
def updateOne (st : Store) (id : Nat) (p : Patch) : Nat × Store :=
  match st.docs.find? (fun q => q.1 == id) with
  | none => (0, st)
  | some q =>
      let d2 := applyPatch q.2 p
      if d2 == q.2 then (0, st)
      else (1, ⟨st.docs.map (fun r => if r.1 == id then (r.1, d2) else r), st.nextId⟩)

/-- Mongo `delete_one({'_id': id})`: the `deleted_count` and the new
collection. -/
def deleteOne (st : Store) (id : Nat) : Nat × Store :=
  if (st.docs.find? (fun p => p.1 == id)).isSome then
    (1, ⟨st.docs.eraseP (fun p => p.1 == id), st.nextId⟩)
  else (0, st)

/-- Mongo `count_documents` for a predicate filter. -/
def countDocs (st : Store) (pred : TaskDoc → Bool) : Nat :=
  (st.docs.filter (fun p => pred p.2)).length

/-! ### The reminder scheduler (APScheduler job registry)

Jobs are modelled by their string keys; `add_job(..., replace_existing=True)`
replaces the job registered under an existing key, so the key multiset is
unchanged when the key is already present. -/

/-- `scheduler.add_job(id := k, replace_existing := True)` on the key set. -/
def addJob (js : List String) (k : String) : List String :=
  if js.contains k then js else js ++ [k]

/-- `scheduler.remove_job(k)`: `none` models the `JobLookupError` Python
raises when the key is absent. -/
def removeJob (js : List String) (k : String) : Option (List String) :=
  if js.contains k then some (js.erase k) else none

/-- One loop iteration of `_cancel_task_reminders`: `remove_job` wrapped in
`try/except: pass`, so an absent key leaves the registry unchanged. -/
def cancelJob (js : List String) (k : String) : List String :=
  match removeJob js k with
  | some js2 => js2
  | none => js

/-- The three job keys `_cancel_task_reminders` iterates over. -/
def reminderJobIds (id : Nat) : List String :=
  ["reminder_1day_" ++ toString id, "reminder_deadline_" ++ toString id,
    "overdue_check_" ++ toString id]

/-- `TaskManager._cancel_task_reminders`. -/
def cancelTaskReminders (js : List String) (id : Nat) : List String :=
  (reminderJobIds id).foldl cancelJob js

/-- `TaskManager._schedule_task_reminders`: registers up to three jobs for a
task.  When `strptime` fails on the deadline the raised error is caught and
no job is registered. -/
def scheduleTaskReminders (js : List String) (id : Nat) (d : TaskDoc)
    (now : DateTime) : List String :=
  match parseDate d.actual_deadline with
  | none => js
  | some dl =>
      let js1 := if DateTime.ltb now (Date.midnight (dl.subDays 1))
        then addJob js ("reminder_1day_" ++ toString id) else js
      let js2 := if Date.leb now.date dl
        then addJob js1 ("reminder_deadline_" ++ toString id) else js1
      addJob js2 ("overdue_check_" ++ toString id)

/-! ### The task manager -/

/-- The manager-visible mutable state: the task collection and the
scheduler's job registry. -/
structure Mstate where
  store : Store
  jobs : List String
deriving DecidableEq

/-- The state at process start. -/
def initState : Mstate :=
  ⟨emptyStore, []⟩

/-- Deadline resolution inside `TaskManager.create_task` (lines 87–93):
keep a truthy provided `actual_deadline`; else fall back to a truthy
`suggested_deadline`; else `utcnow() + timedelta(days=7)` formatted
`YYYY-MM-DD`.  Python truthiness makes `None` and `''` both falsy. -/
def resolveDeadline (item : RawItem) (now : DateTime) : String :=
  let ad := item.actual_deadline.getD ""
  let sd := item.suggested_deadline.getD ""
  if ad == "" && sd != "" then sd
  else if ad == "" then (now.date.addDays 7).format
  else ad

/-- The task document `TaskManager.create_task` builds (lines 69–93) once
validation has passed. -/
def builtDoc (item : RawItem) (meetingId : Option String) (now : DateTime) :
    TaskDoc :=
  { task := pyStrip (item.task.getD "")
    assignee := pyStrip (item.assignee.getD "TBD")
    priority := pyLower (item.priority.getD "medium")
    context := pyStrip (item.context.getD "")
    status := "pending"
    meeting_id := meetingId
    transcript_id := item.transcript_id
    suggested_deadline := item.suggested_deadline
    actual_deadline := resolveDeadline item now
    created_at := now
    updated_at := now }

/-- `TaskManager.create_task`: validates, persists and schedules reminders.
The `Except.error` value models the raised `ValueError`; the state is
returned unchanged in that case since nothing was persisted yet. -/
def createTask (item : RawItem) (meetingId : Option String) (now : DateTime)
    (s : Mstate) : Except String Nat × Mstate :=
  if pyStrip (item.task.getD "") == "" then
    (Except.error "Task description is required", s)
  else
    let doc := builtDoc item meetingId now
    let r := insertOne s.store doc
    (Except.ok r.1, ⟨r.2, scheduleTaskReminders s.jobs r.1 doc now⟩)

/-- `TaskManager._reschedule_task_reminders`: cancel, re-read, re-schedule. -/
def rescheduleTaskReminders (st : Store) (js : List String) (id : Nat)
    (now : DateTime) : List String :=
  let js2 := cancelTaskReminders js id
  match findDoc st id with
  | some d => scheduleTaskReminders js2 id d now
  | none => js2

/-- `TaskManager.update_task`: stamps `updated_at := utcnow()` into the
patch, applies `update_one`, and — only when `modified_count > 0` — returns
`True` and, if `actual_deadline` was part of the patch, reschedules the
task's reminders. -/
def updateTask (id : Nat) (patch : Patch) (now : DateTime) (s : Mstate) :
    Bool × Mstate :=
  let p : Patch := { patch with updated_at := some now }
  let r := updateOne s.store id p
  if 0 < r.1 then
    let js := if p.actual_deadline.isSome
      then rescheduleTaskReminders r.2 s.jobs id now else s.jobs
    (true, ⟨r.2, js⟩)
  else (false, ⟨r.2, s.jobs⟩)

/-- `TaskManager.mark_task_completed`. -/
def markTaskCompleted (id : Nat) (now : DateTime) (s : Mstate) :
    Bool × Mstate :=
  updateTask id { emptyPatch with status := some "completed" } now s

/-- `TaskManager.mark_task_in_progress`. -/
def markTaskInProgress (id : Nat) (now : DateTime) (s : Mstate) :
    Bool × Mstate :=
  updateTask id { emptyPatch with status := some "in_progress" } now s

/-- `TaskManager.delete_task`: cancel the three reminder jobs first, then
`delete_one`; `True` exactly when a document was deleted. -/
def deleteTask (id : Nat) (s : Mstate) : Bool × Mstate :=
  let js := cancelTaskReminders s.jobs id
  let r := deleteOne s.store id
  (0 < r.1, ⟨r.2, js⟩)

/-! ### Query layer -/

/-- The Mongo filter of `get_overdue_tasks`: open status and a deadline
string strictly below `today` in Mongo's (lexicographic) string order. -/
def overduePred (today : String) (p : Nat × TaskDoc) : Bool :=
  (p.2.status == "pending" || p.2.status == "in_progress") &&
    strLtb p.2.actual_deadline today

/-- Ascending-deadline ordering used by `.sort('actual_deadline', 1)`. -/
def deadlineLE (a b : Nat × TaskDoc) : Prop :=
  strLeb a.2.actual_deadline b.2.actual_deadline = true

instance : DecidableRel deadlineLE := fun a b =>
  inferInstanceAs (Decidable (strLeb a.2.actual_deadline b.2.actual_deadline = true))

instance : IsTotal (Nat × TaskDoc) deadlineLE := by
  have asymm : ∀ as bs : List Char,
      charListLt as bs = true → charListLt bs as = false := by
    intro as
    induction as with
    | nil =>
        intro bs h
        cases bs with
        | nil => cases h
        | cons b bs1 => rfl
    | cons a as1 ih =>
        intro bs h
        cases bs with
        | nil => cases h
        | cons b bs1 =>
            simp only [charListLt, Bool.or_eq_true, Bool.and_eq_true,
              beq_iff_eq] at h
            simp only [charListLt, Bool.or_eq_false_iff,
              Bool.and_eq_false_iff, charLtb, decide_eq_true_iff,
              decide_eq_false_iff_not, beq_eq_false_iff_ne]
            rcases h with h | ⟨hab, hlt⟩
            · simp only [charLtb, decide_eq_true_iff] at h
              exact ⟨Nat.not_lt.mpr (Nat.le_of_lt h), Or.inl (by
                intro hba
                rw [hba] at h
                exact Nat.lt_irrefl _ h)⟩
            · subst hab
              exact ⟨Nat.not_lt.mpr (Nat.le_refl _), Or.inr (ih bs1 hlt)⟩
  constructor
  intro a b
  unfold deadlineLE strLeb
  by_cases h : strLtb b.2.actual_deadline a.2.actual_deadline = true
  · right
    unfold strLtb at h ⊢
    rw [asymm _ _ h]
    rfl
  · left
    rw [Bool.not_eq_true] at h
    rw [h]
    rfl

instance : IsTrans (Nat × TaskDoc) deadlineLE := by
  have ltrans : ∀ as bs cs : List Char,
      charListLt as bs = true → charListLt bs cs = true →
        charListLt as cs = true := by
    intro as
    induction as with
    | nil =>
        intro bs cs h1 h2
        cases bs with
        | nil => cases h1
        | cons b bs1 =>
            cases cs with
            | nil => cases h2
            | cons c cs1 => rfl
    | cons a as1 ih =>
        intro bs cs h1 h2
        cases bs with
        | nil => cases h1
        | cons b bs1 =>
            cases cs with
            | nil => cases h2
            | cons c cs1 =>
                simp only [charListLt, Bool.or_eq_true, Bool.and_eq_true,
                  beq_iff_eq, charLtb, decide_eq_true_iff] at h1 h2 ⊢
                rcases h1 with h1 | ⟨hab, hlt1⟩
                · rcases h2 with h2 | ⟨hbc, hlt2⟩
                  · exact Or.inl (Nat.lt_trans h1 h2)
                  · subst hbc
                    exact Or.inl h1
                · subst hab
                  rcases h2 with h2 | ⟨hbc, hlt2⟩
                  · exact Or.inl h2
                  · subst hbc
                    exact Or.inr ⟨rfl, ih bs1 cs1 hlt1 hlt2⟩
  have connex : ∀ as bs : List Char,
      charListLt as bs = false → charListLt bs as = false → as = bs := by
    intro as
    induction as with
    | nil =>
        intro bs h1 _
        cases bs with
        | nil => rfl
        | cons b bs1 => cases h1
    | cons a as1 ih =>
        intro bs h1 h2
        cases bs with
        | nil => cases h2
        | cons b bs1 =>
            simp only [charListLt, Bool.or_eq_false_iff,
              Bool.and_eq_false_iff, charLtb, decide_eq_false_iff_not,
              beq_eq_false_iff_ne] at h1 h2
            have hab : a = b := by
              have h3 := Nat.le_antisymm (Nat.not_lt.mp h2.1)
                (Nat.not_lt.mp h1.1)
              calc a = Char.ofNat a.toNat := (Char.ofNat_toNat a).symm
                _ = Char.ofNat b.toNat := by rw [h3]
                _ = b := Char.ofNat_toNat b
            subst hab
            rcases h1.2 with h | h
            · exact absurd rfl h
            · rcases h2.2 with h4 | h4
              · exact absurd rfl h4
              · rw [ih bs1 h h4]
  constructor
  intro a b c hab hbc
  unfold deadlineLE strLeb strLtb at hab hbc ⊢
  rw [Bool.not_eq_eq_eq_not, Bool.not_true] at hab hbc ⊢
  by_cases hca : charListLt c.2.actual_deadline.data a.2.actual_deadline.data = true
  · by_cases hbcx : charListLt b.2.actual_deadline.data c.2.actual_deadline.data = true
    · rw [ltrans _ _ _ hbcx hca] at hab
      cases hab
    · rw [Bool.not_eq_true] at hbcx
      have := connex _ _ hbcx hbc
      rw [← this] at hca
      rw [hca] at hab
      cases hab
  · rw [Bool.not_eq_true] at hca
    exact hca

/-- The documents of `get_overdue_tasks` for a given `today` string. -/
def overdueQuery (st : Store) (today : String) : List (Nat × TaskDoc) :=
  List.insertionSort deadlineLE (st.docs.filter (overduePred today))

/-- `TaskManager.get_overdue_tasks`, with `utcnow()` made explicit. -/
def getOverdueTasks (s : Mstate) (now : DateTime) : List (Nat × TaskDoc) :=
  overdueQuery s.store now.date.format

/-- The Mongo filter of `get_upcoming_tasks`. -/
def upcomingPred (today future : String) (p : Nat × TaskDoc) : Bool :=
  (p.2.status == "pending" || p.2.status == "in_progress") &&
    strLeb today p.2.actual_deadline && strLeb p.2.actual_deadline future

/-- `TaskManager.get_upcoming_tasks` (default `days_ahead = 7`). -/
def getUpcomingTasks (s : Mstate) (now : DateTime) : List (Nat × TaskDoc) :=
  List.insertionSort deadlineLE
    (s.store.docs.filter (upcomingPred now.date.format (now.date.addDays 7).format))

/-- The record `get_task_statistics` returns. -/
structure Stats where
  total_tasks : Nat
  pending_tasks : Nat
  in_progress_tasks : Nat
  completed_tasks : Nat
  overdue_tasks : Nat
  upcoming_tasks : Nat
deriving DecidableEq

/-- `TaskManager.get_task_statistics`, with `utcnow()` made explicit. -/
def getTaskStatistics (s : Mstate) (now : DateTime) : Stats :=
  { total_tasks := countDocs s.store (fun _ => true)
    pending_tasks := countDocs s.store (fun d => d.status == "pending")
    in_progress_tasks := countDocs s.store (fun d => d.status == "in_progress")
    completed_tasks := countDocs s.store (fun d => d.status == "completed")
    overdue_tasks := (getOverdueTasks s now).length
    upcoming_tasks := (getUpcomingTasks s now).length }

/-! ### Deadline heuristic (`OllamaNLPProcessor._suggest_deadline`) -/

/-- The urgency keywords of `_suggest_deadline`. -/
def urgentKeywords : List String :=
  ["urgent", "asap", "immediately", "today", "tomorrow", "deadline", "critical"]

/-- The medium-urgency keywords of `_suggest_deadline`. -/
def mediumKeywords : List String :=
  ["next week", "soon", "priority", "important"]

/-- `OllamaNLPProcessor._suggest_deadline`, with `utcnow()`'s date made an
explicit parameter. -/
def suggestDeadline (taskText : String) (today : Date) : String :=
  let taskLower := pyLower taskText
  let daysAhead :=
    if urgentKeywords.any (fun k => strHasSub taskLower k) then 1
    else if mediumKeywords.any (fun k => strHasSub taskLower k) then 3
    else 7
  (today.addDays daysAhead).format

/-! ### NLP-side item cleaning (`OllamaNLPProcessor._parse_action_items`) -/

/-- The per-item cleaning of `_parse_action_items` (lines 207–217): applied
to each parsed dict that has a `task` key; this is the only place the code
coerces an invalid priority to `medium`. -/
def cleanActionItem (item : RawItem) : RawItem :=
  let p := pyLower (item.priority.getD "medium")
  { task := some (pyStrip (item.task.getD ""))
    assignee := some (pyStrip (item.assignee.getD "TBD"))
    priority := some (if p == "high" || p == "medium" || p == "low" then p else "medium")
    context := some (pyStrip (item.context.getD ""))
    transcript_id := none
    suggested_deadline := none
    actual_deadline := none }

/-! ### Reachable states (sequences of manager operations) -/

/-- One call through the manager's public mutating interface. -/
inductive Op where
  | create (item : RawItem) (meetingId : Option String) (now : DateTime)
  | update (id : Nat) (patch : Patch) (now : DateTime)
  | markInProgress (id : Nat) (now : DateTime)
  | markCompleted (id : Nat) (now : DateTime)
  | delete (id : Nat)

/-- The state transition of one operation. -/
def applyOp (s : Mstate) : Op → Mstate
  | Op.create item meetingId now => (createTask item meetingId now s).2
  | Op.update id patch now => (updateTask id patch now s).2
  | Op.markInProgress id now => (markTaskInProgress id now s).2
  | Op.markCompleted id now => (markTaskCompleted id now s).2
  | Op.delete id => (deleteTask id s).2

/-- The state after a sequence of operations from process start. -/
def run (ops : List Op) : Mstate :=
  ops.foldl applyOp initState

/-! ### Specification-side predicates and concrete scenario data -/

/-- Spec-side notion used for the deadline heuristic: the keyword occurs
(case-insensitively) somewhere in the text. -/
def containsKeyword (text k : String) : Prop :=
  ∃ p q, (pyLower text).data = p ++ k.data ++ q

/-- A status value admitted by the spec's status enum (or no status patch
at all). -/
def statusValid (st : Option String) : Prop :=
  st = none ∨ st = some "pending" ∨ st = some "in_progress" ∨
    st = some "completed"

/-- An operation whose status patch (if any) stays inside the status enum;
`update_task` is the only operation accepting a free-form status. -/
def opValid : Op → Prop
  | Op.update _ p _ => statusValid p.status
  | _ => True

/-- Every stored task's status lies in the status enum. -/
def wfStatus (s : Mstate) : Prop :=
  ∀ p ∈ s.store.docs, p.2.status = "pending" ∨ p.2.status = "in_progress" ∨
    p.2.status = "completed"

/-- Scenario C1: a task with no deadline fields. -/
def c1Item : RawItem :=
  { emptyItem with task := some "Prepare the quarterly report" }

/-- Scenario C1: creation instant, 2024-01-15. -/
def c1T0 : DateTime :=
  ⟨⟨2024, 1, 15⟩, 0⟩

/-- Scenario C1: the instant the task is started. -/
def c1T1 : DateTime :=
  ⟨⟨2024, 1, 16⟩, 10⟩

/-- Scenario C1: the instant the task is completed. -/
def c1T2 : DateTime :=
  ⟨⟨2024, 1, 17⟩, 20⟩

/-- Scenario C1: state after creation. -/
def c1S1 : Mstate :=
  (createTask c1Item none c1T0 initState).2

/-- Scenario C1: state after `mark_task_in_progress`. -/
def c1S2 : Mstate :=
  (markTaskInProgress 0 c1T1 c1S1).2

/-- Scenario C1: state after `mark_task_completed`. -/
def c1S3 : Mstate :=
  (markTaskCompleted 0 c1T2 c1S2).2

/-- A minimal valid raw item (only a task text). -/
def itemBare : RawItem :=
  { emptyItem with task := some "x" }

/-- A valid raw item carrying both deadline fields. -/
def itemBothDl : RawItem :=
  { itemBare with
      actual_deadline := some "2024-03-01"
      suggested_deadline := some "2024-02-01" }

/-- A valid raw item carrying only a suggested deadline. -/
def itemSuggDl : RawItem :=
  { itemBare with suggested_deadline := some "2024-02-01" }

/-- A valid raw item whose provided assignee is whitespace-only. -/
def itemWsAssignee : RawItem :=
  { itemBare with assignee := some "  " }

/-- A raw item whose task text is whitespace-only. -/
def itemWsTask : RawItem :=
  { emptyItem with task := some "   " }

/-- Scenario C2: a raw item whose priority is the invalid value
`"urgent"`, passed directly to `create_task`. -/
def c2Item : RawItem :=
  { emptyItem with task := some "Review the budget", priority := some "urgent" }

/-- Scenario C2: a raw item whose priority is `"HIGH"` (wrong case). -/
def itemHigh : RawItem :=
  { itemBare with priority := some "HIGH" }

/-- Scenario C6: a task due 2024-01-19 that will stay pending. -/
def itemDue19 : RawItem :=
  { emptyItem with
      task := some "Send invoices"
      actual_deadline := some "2024-01-19" }

/-- Scenario C6: a second task due 2024-01-19, to be completed. -/
def itemDue19b : RawItem :=
  { emptyItem with
      task := some "Archive notes"
      actual_deadline := some "2024-01-19" }

/-- Scenario C6: one pending and one completed task, both due 2024-01-19. -/
def c6S : Mstate :=
  run [Op.create itemDue19 none c1T0, Op.create itemDue19b none c1T0,
    Op.markCompleted 1 c1T1]

/-- Scenario C6: the query instant 2024-01-20. -/
def c6AsOf : DateTime :=
  ⟨⟨2024, 1, 20⟩, 0⟩

/-- Scenario C4: the run that creates one task and then patches its status
to a value outside the status enum via `update_task`. -/
def c4Ops : List Op :=
  [Op.create c1Item none c1T0,
    Op.update 0 { emptyPatch with status := some "cancelled" } c1T1]

/-- Scenario C10: create a task, complete it; the claim is about completing
it a second time. -/
def c10Ops : List Op :=
  [Op.create c1Item none c1T0, Op.markCompleted 0 c1T1]

/-! ### Helper lemmas -/

/-- Stripping an all-whitespace string yields the empty string. -/
theorem pyStrip_eq_empty_of_whitespace {s : String}
    (h : ∀ c ∈ s.data, isPyWhitespace c = true) : pyStrip s = "" := by
  unfold pyStrip
  have h1 : s.data.dropWhile isPyWhitespace = [] :=
    List.dropWhile_eq_nil_iff.mpr h
  rw [h1]
  rfl

/-- Successful `create_task` appends exactly the built document under the
store's next fresh id and returns that id. -/
theorem createTask_success {item : RawItem} {meetingId : Option String}
    {now : DateTime} {s : Mstate} (h : pyStrip (item.task.getD "") ≠ "") :
    createTask item meetingId now s =
      (Except.ok s.store.nextId,
        ⟨⟨s.store.docs ++ [(s.store.nextId, builtDoc item meetingId now)],
            s.store.nextId + 1⟩,
          scheduleTaskReminders s.jobs s.store.nextId
            (builtDoc item meetingId now) now⟩) := by
  unfold createTask insertOne
  rw [if_neg (by simpa using h)]

/-- The document persisted by a successful `create_task` is the last one in
the collection. -/
theorem createTask_persisted {item : RawItem} {meetingId : Option String}
    {now : DateTime} {s : Mstate} (h : pyStrip (item.task.getD "") ≠ "") :
    ((createTask item meetingId now s).2.store.docs.getLast?).map Prod.snd =
      some (builtDoc item meetingId now) := by
  rw [createTask_success h]
  simp

/-- C3: for every input to `create_task` (validation passing, so a document
is persisted), the persisted `actual_deadline` is resolved deterministically
in order: the provided `actual_deadline` when present (a non-empty string,
matching the code's Python truthiness test); else the provided
`suggested_deadline` when present; else the current time plus 7 days
formatted `YYYY-MM-DD`. -/
theorem c3_deadline_resolution (item : RawItem) (meetingId : Option String)
    (now : DateTime) (s : Mstate) (h : pyStrip (item.task.getD "") ≠ "") :
    (∀ a, item.actual_deadline = some a → a ≠ "" →
      ((createTask item meetingId now s).2.store.docs.getLast?).map
          (fun p => p.2.actual_deadline) = some a) ∧
    ((item.actual_deadline = none ∨ item.actual_deadline = some "") →
      ∀ b, item.suggested_deadline = some b → b ≠ "" →
      ((createTask item meetingId now s).2.store.docs.getLast?).map
          (fun p => p.2.actual_deadline) = some b) ∧
    ((item.actual_deadline = none ∨ item.actual_deadline = some "") →
      (item.suggested_deadline = none ∨ item.suggested_deadline = some "") →
      ((createTask item meetingId now s).2.store.docs.getLast?).map
          (fun p => p.2.actual_deadline) = some ((now.date.addDays 7).format)) := by
  rw [createTask_success h]
  refine ⟨?_, ?_, ?_⟩
  · intro a ha hne
    simp only [List.getLast?_concat, Option.map_some']
    simp [builtDoc, resolveDeadline, ha, hne]
  · intro hab b hb hbne
    simp only [List.getLast?_concat, Option.map_some']
    rcases hab with hab | hab <;> simp [builtDoc, resolveDeadline, hab, hb, hbne]
  · intro hab hsb
    simp only [List.getLast?_concat, Option.map_some']
    rcases hab with hab | hab <;> rcases hsb with hsb | hsb <;>
      simp [builtDoc, resolveDeadline, hab, hsb]

/-- C3 witness: the three branches at concrete inputs. -/
theorem c3_deadline_resolution_witness :
    (((createTask itemBothDl none c1T0
        initState).2.store.docs.getLast?).map
        (fun p => p.2.actual_deadline) = some "2024-03-01") ∧
    (((createTask itemSuggDl none c1T0
        initState).2.store.docs.getLast?).map
        (fun p => p.2.actual_deadline) = some "2024-02-01") ∧
    (((createTask itemBare none c1T0
        initState).2.store.docs.getLast?).map
        (fun p => p.2.actual_deadline) = some ((c1T0.date.addDays 7).format)) :=
  ⟨(c3_deadline_resolution _ none c1T0 initState (by decide)).1 _ rfl
      (by decide),
    (c3_deadline_resolution _ none c1T0 initState (by decide)).2.1
      (Or.inl rfl) _ rfl (by decide),
    (c3_deadline_resolution _ none c1T0 initState (by decide)).2.2
      (Or.inl rfl) (Or.inl rfl)⟩

/-- C5: a raw item whose task field is absent, empty or whitespace-only
makes `create_task` fail with the validation error, and the state (store
and scheduler) is exactly the state before the call: nothing was
persisted. -/
theorem c5_empty_task_rejected (item : RawItem) (meetingId : Option String)
    (now : DateTime) (s : Mstate)
    (h : item.task = none ∨
      ∃ t, item.task = some t ∧ ∀ c ∈ t.data, isPyWhitespace c = true) :
    createTask item meetingId now s =
      (Except.error "Task description is required", s) := by
  have hs : pyStrip (item.task.getD "") = "" := by
    rcases h with h | ⟨t, ht, hw⟩
    · rw [h]
      rfl
    · rw [ht]
      exact pyStrip_eq_empty_of_whitespace hw
  unfold createTask
  rw [if_pos (by simpa using hs)]

/-- C5 witness: a whitespace-only task is rejected and the initial state is
returned unchanged. -/
theorem c5_empty_task_rejected_witness :
    createTask itemWsTask none c1T0 initState =
      (Except.error "Task description is required", initState) :=
  c5_empty_task_rejected _ none c1T0 initState
    (Or.inr ⟨"   ", rfl, by decide⟩)

/-- C9: at `create_task` the `"TBD"` default applies only to an absent
assignee key: an explicitly provided whitespace-only assignee is trimmed
and persisted as the empty string, while an absent assignee is persisted as
`"TBD"`. -/
theorem c9_assignee_trim (item : RawItem) (meetingId : Option String)
    (now : DateTime) (s : Mstate) (h : pyStrip (item.task.getD "") ≠ "") :
    (∀ a, item.assignee = some a → (∀ c ∈ a.data, isPyWhitespace c = true) →
      ((createTask item meetingId now s).2.store.docs.getLast?).map
          (fun p => p.2.assignee) = some "") ∧
    (item.assignee = none →
      ((createTask item meetingId now s).2.store.docs.getLast?).map
          (fun p => p.2.assignee) = some "TBD") := by
  rw [createTask_success h]
  constructor
  · intro a ha hw
    simp only [List.getLast?_concat, Option.map_some']
    simp [builtDoc, ha, pyStrip_eq_empty_of_whitespace hw]
  · intro ha
    simp only [List.getLast?_concat, Option.map_some']
    simp [builtDoc, ha]
    decide

/-- C9 witness: an assignee of two spaces is stored as the empty string;
an absent assignee is stored as `"TBD"`. -/
theorem c9_assignee_trim_witness :
    (((createTask itemWsAssignee
        none c1T0 initState).2.store.docs.getLast?).map
        (fun p => p.2.assignee) = some "") ∧
    (((createTask itemBare none c1T0
        initState).2.store.docs.getLast?).map
        (fun p => p.2.assignee) = some "TBD") :=
  ⟨(c9_assignee_trim _ none c1T0 initState (by decide)).1 _ rfl (by decide),
    (c9_assignee_trim _ none c1T0 initState (by decide)).2 rfl⟩

/-- C2 counterexample: `create_task` itself performs no validation of the
priority value — the raw item with priority `"urgent"` is persisted with
priority `"urgent"`, not `"medium"` as the claim states. -/
theorem c2_counterexample :
    ((createTask c2Item none c1T0 initState).2.store.docs.map
        (fun p => p.2.priority) = ["urgent"]) ∧
    ((createTask c2Item none c1T0 initState).2.store.docs.map
        (fun p => p.2.priority) ≠ ["medium"]) := by
  decide

/-- C2 (amended): `create_task` persists the lower-cased priority input
(default `medium` when absent) without validating it; the coercion of
values outside {high, medium, low} to `medium` happens only in the NLP
parsing step (`_parse_action_items`), so the claim's property holds exactly
for items that passed that step: for them `"HIGH"` is stored as `high` and
`"urgent"` as `medium`. -/
theorem c2_priority_normalization (item : RawItem)
    (meetingId : Option String) (now : DateTime) (s : Mstate) :
    (pyStrip (item.task.getD "") ≠ "" →
      ((createTask item meetingId now s).2.store.docs.getLast?).map
          (fun p => p.2.priority) =
        some (pyLower (item.priority.getD "medium"))) ∧
    (pyStrip ((cleanActionItem item).task.getD "") ≠ "" →
      ((createTask (cleanActionItem item) meetingId now
            s).2.store.docs.getLast?).map (fun p => p.2.priority) =
        some (if pyLower (item.priority.getD "medium") = "high" ∨
              pyLower (item.priority.getD "medium") = "medium" ∨
              pyLower (item.priority.getD "medium") = "low"
            then pyLower (item.priority.getD "medium") else "medium")) := by
  have key : ∀ it : RawItem, pyStrip (it.task.getD "") ≠ "" →
      ((createTask it meetingId now s).2.store.docs.getLast?).map
          (fun p => p.2.priority) =
        some (pyLower (it.priority.getD "medium")) := by
    intro it hit
    rw [createTask_success hit]
    simp only [List.getLast?_concat, Option.map_some']
    simp [builtDoc]
  refine ⟨key item, ?_⟩
  intro hcl
  rw [key (cleanActionItem item) hcl]
  by_cases hval : pyLower (item.priority.getD "medium") = "high" ∨
      pyLower (item.priority.getD "medium") = "medium" ∨
      pyLower (item.priority.getD "medium") = "low"
  · rw [if_pos hval]
    have hb : (pyLower (item.priority.getD "medium") == "high" ||
        pyLower (item.priority.getD "medium") == "medium" ||
        pyLower (item.priority.getD "medium") == "low") = true := by
      rcases hval with hv | hv | hv <;> simp [hv]
    simp only [cleanActionItem, hb, if_true, Option.getD_some]
    rcases hval with hv | hv | hv <;> rw [hv] <;> rfl
  · rw [if_neg hval]
    have hb : (pyLower (item.priority.getD "medium") == "high" ||
        pyLower (item.priority.getD "medium") == "medium" ||
        pyLower (item.priority.getD "medium") == "low") = false := by
      simp only [Bool.or_eq_false_iff, beq_eq_false_iff_ne]
      push_neg at hval
      exact ⟨⟨hval.1, hval.2.1⟩, hval.2.2⟩
    simp only [cleanActionItem, hb, if_false, Bool.false_eq_true,
      Option.getD_some]
    rfl

/-- C2 witness: a cleaned `"HIGH"` is stored as `high`, a cleaned
`"urgent"` as `medium`, while `create_task` applied to the raw `"urgent"`
item stores the lower-cased value unvalidated. -/
theorem c2_priority_normalization_witness :
    (((createTask (cleanActionItem itemHigh) none c1T0
        initState).2.store.docs.getLast?).map (fun p => p.2.priority) =
      some "high") ∧
    (((createTask (cleanActionItem c2Item) none c1T0
        initState).2.store.docs.getLast?).map (fun p => p.2.priority) =
      some "medium") ∧
    (((createTask c2Item none c1T0
        initState).2.store.docs.getLast?).map (fun p => p.2.priority) =
      some (pyLower "urgent")) :=
  ⟨((c2_priority_normalization itemHigh none c1T0 initState).2
      (by decide)).trans (by decide),
    ((c2_priority_normalization c2Item none c1T0 initState).2
      (by decide)).trans (by decide),
    (c2_priority_normalization c2Item none c1T0 initState).1 (by decide)⟩

/-- The code point of a digit character. -/
theorem digitChar_toNat (n : Nat) : (digitChar n).toNat = 48 + n % 10 := by
  have h : n % 10 < 10 := Nat.mod_lt _ (by omega)
  unfold digitChar
  set m := n % 10 with hm
  interval_cases m <;> decide

/-- Digit characters agree exactly on equal digits. -/
theorem digitChar_eq_iff (a b : Nat) :
    digitChar a = digitChar b ↔ a % 10 = b % 10 := by
  constructor
  · intro h
    have h2 := congrArg Char.toNat h
    rw [digitChar_toNat, digitChar_toNat] at h2
    omega
  · intro h
    unfold digitChar
    rw [h]

/-- Comparison of digit characters is comparison of digits. -/
theorem charLtb_digitChar (a b : Nat) :
    charLtb (digitChar a) (digitChar b) = decide (a % 10 < b % 10) := by
  unfold charLtb
  rw [digitChar_toNat, digitChar_toNat]
  exact decide_eq_decide.mpr (by omega)

/-- Boolean equality of digit characters is equality of digits. -/
theorem beq_digitChar (a b : Nat) :
    (digitChar a == digitChar b) = decide (a % 10 = b % 10) := by
  by_cases h : a % 10 = b % 10
  · rw [(digitChar_eq_iff a b).mpr h]
    simp [h]
  · have hc : digitChar a ≠ digitChar b :=
      fun hEq => h ((digitChar_eq_iff a b).mp hEq)
    simp [hc, h]

/-- Two-digit blocks agree exactly on equal values modulo 100. -/
theorem pad2Chars_eq_iff (a b : Nat) :
    pad2Chars a = pad2Chars b ↔ a % 100 = b % 100 := by
  unfold pad2Chars
  simp only [List.cons.injEq, and_true, digitChar_eq_iff]
  constructor
  · rintro ⟨h1, h2⟩
    omega
  · intro h
    constructor <;> omega

/-- Boolean equality of two-digit blocks is equality modulo 100. -/
theorem beq_pad2Chars (a b : Nat) :
    (pad2Chars a == pad2Chars b) = decide (a % 100 = b % 100) := by
  by_cases h : a % 100 = b % 100
  · rw [(pad2Chars_eq_iff a b).mpr h]
    simp [h]
  · have hc : pad2Chars a ≠ pad2Chars b :=
      fun hEq => h ((pad2Chars_eq_iff a b).mp hEq)
    simp [hc, h]

/-- Lexicographic comparison of two-digit blocks is numeric comparison
modulo 100. -/
theorem charListLt_pad2 (a b : Nat) :
    charListLt (pad2Chars a) (pad2Chars b) = decide (a % 100 < b % 100) := by
  show (charLtb (digitChar (a / 10)) (digitChar (b / 10)) ||
      ((digitChar (a / 10) == digitChar (b / 10)) &&
        (charLtb (digitChar a) (digitChar b) ||
          ((digitChar a == digitChar b) && false)))) = _
  rw [charLtb_digitChar, charLtb_digitChar, beq_digitChar, beq_digitChar,
    Bool.and_false, Bool.or_false]
  rw [Bool.eq_iff_iff]
  simp only [Bool.or_eq_true, Bool.and_eq_true, decide_eq_true_eq]
  omega

/-- Lexicographic comparison splits over equal-length prefixes. -/
theorem charListLt_append (xs : List Char) : ∀ ys us vs : List Char,
    xs.length = ys.length →
    charListLt (xs ++ us) (ys ++ vs) =
      (charListLt xs ys || (xs == ys && charListLt us vs)) := by
  induction xs with
  | nil =>
      intro ys us vs h
      cases ys with
      | nil => simp [charListLt]
      | cons b bs => simp at h
  | cons a as ih =>
      intro ys us vs h
      cases ys with
      | nil => simp at h
      | cons b bs =>
          have hlen : as.length = bs.length := by simpa using h
          show (charLtb a b || (a == b && charListLt (as ++ us) (bs ++ vs)))
            = _
          rw [ih bs us vs hlen]
          show _ = ((charLtb a b || (a == b && charListLt as bs)) ||
            (((a == b) && (as == bs)) && charListLt us vs))
          cases charLtb a b <;> cases hab : (a == b) <;>
            cases charListLt as bs <;> cases as == bs <;>
            cases charListLt us vs <;> rfl

/-- The four-digit year block splits into two two-digit blocks. -/
theorem pad4Chars_split (y : Nat) :
    pad4Chars y = pad2Chars (y / 100) ++ pad2Chars y := by
  unfold pad4Chars pad2Chars
  rw [Nat.div_div_eq_div_mul]
  norm_num

/-- The `YYYY-MM-DD` rendering as nested two-character blocks. -/
theorem formatChars_blocks (d : Date) :
    d.formatChars =
      pad2Chars (d.year / 100) ++ (pad2Chars d.year ++ (['-'] ++
        (pad2Chars d.month ++ (['-'] ++ pad2Chars d.day)))) := by
  unfold Date.formatChars
  rw [pad4Chars_split]
  simp [List.append_assoc]

/-- On representable dates (year below 10000, month and day below 100 —
every date `datetime` produces), the store's lexicographic comparison of
`strftime('%Y-%m-%d')` strings is exactly the calendar-date comparison. -/
theorem strLtb_format_eq_date_ltb (d1 d2 : Date) (hy1 : d1.year < 10000)
    (hy2 : d2.year < 10000) (hm1 : d1.month < 100) (hm2 : d2.month < 100)
    (hd1 : d1.day < 100) (hd2 : d2.day < 100) :
    strLtb d1.format d2.format = Date.ltb d1 d2 := by
  show charListLt d1.formatChars d2.formatChars = Date.ltb d1 d2
  rw [formatChars_blocks, formatChars_blocks,
    charListLt_append (pad2Chars (d1.year / 100)) (pad2Chars (d2.year / 100))
      _ _ (by rfl),
    charListLt_append (pad2Chars d1.year) (pad2Chars d2.year) _ _ (by rfl),
    charListLt_append ['-'] ['-'] _ _ (by rfl),
    charListLt_append (pad2Chars d1.month) (pad2Chars d2.month) _ _ (by rfl),
    charListLt_append ['-'] ['-'] _ _ (by rfl),
    beq_pad2Chars, charListLt_pad2, beq_pad2Chars, charListLt_pad2,
    beq_pad2Chars, charListLt_pad2, charListLt_pad2]
  have hdash1 : charListLt ['-'] ['-'] = false := rfl
  have hdash2 : ((['-'] : List Char) == ['-']) = true := rfl
  rw [hdash1, hdash2]
  unfold Date.ltb
  rw [Bool.eq_iff_iff]
  simp only [Bool.or_eq_true, Bool.and_eq_true, decide_eq_true_eq,
    Bool.false_eq_true, false_or, true_and, and_true, beq_iff_eq]
  have k1 : d1.year / 100 < 100 := by omega
  have k2 : d2.year / 100 < 100 := by omega
  rw [Nat.mod_eq_of_lt k1, Nat.mod_eq_of_lt k2, Nat.mod_eq_of_lt hm1,
    Nat.mod_eq_of_lt hm2, Nat.mod_eq_of_lt hd1, Nat.mod_eq_of_lt hd2]
  omega

/-- C6: `get_overdue_tasks` at an instant returns exactly the stored tasks
whose status is `pending` or `in_progress` and whose `actual_deadline` is
strictly below the instant's `YYYY-MM-DD` date string (the store's string
order, which on `%Y-%m-%d` renderings of representable dates coincides with
the calendar order — last conjunct), arranged ascending by deadline; a
`completed` task is never included. -/
theorem c6_overdue_query (s : Mstate) (now : DateTime) :
    List.Perm (getOverdueTasks s now)
        (s.store.docs.filter (overduePred now.date.format)) ∧
    List.Sorted deadlineLE (getOverdueTasks s now) ∧
    (∀ p : Nat × TaskDoc, p ∈ getOverdueTasks s now ↔
      p ∈ s.store.docs ∧
        (p.2.status = "pending" ∨ p.2.status = "in_progress") ∧
        strLtb p.2.actual_deadline now.date.format = true) ∧
    (∀ p ∈ getOverdueTasks s now, p.2.status ≠ "completed") ∧
    (∀ e1 e2 : Date, e1.year < 10000 → e2.year < 10000 → e1.month < 100 →
      e2.month < 100 → e1.day < 100 → e2.day < 100 →
      strLtb e1.format e2.format = Date.ltb e1 e2) := by
  have hmem : ∀ p : Nat × TaskDoc, p ∈ getOverdueTasks s now ↔
      p ∈ s.store.docs ∧
        (p.2.status = "pending" ∨ p.2.status = "in_progress") ∧
        strLtb p.2.actual_deadline now.date.format = true := by
    intro p
    unfold getOverdueTasks overdueQuery
    rw [List.mem_insertionSort, List.mem_filter]
    simp [overduePred]
  refine ⟨List.perm_insertionSort _ _, List.sorted_insertionSort _ _, hmem,
    ?_, fun e1 e2 h1 h2 h3 h4 h5 h6 =>
      strLtb_format_eq_date_ltb e1 e2 h1 h2 h3 h4 h5 h6⟩
  intro p hp
  rcases ((hmem p).mp hp).2.1 with h | h <;> rw [h] <;> decide

/-- C6 witness: at 2024-01-20 the pending task due 2024-01-19 is overdue
while the completed task due 2024-01-19 is excluded. -/
theorem c6_overdue_query_witness :
    (0, builtDoc itemDue19 none c1T0) ∈ getOverdueTasks c6S c6AsOf ∧
    ¬ (1, applyPatch (builtDoc itemDue19b none c1T0)
        ⟨some "completed", none, some c1T1⟩) ∈ getOverdueTasks c6S c6AsOf ∧
    strLtb (Date.format ⟨2024, 1, 19⟩) (Date.format ⟨2024, 1, 20⟩) =
      Date.ltb ⟨2024, 1, 19⟩ ⟨2024, 1, 20⟩ :=
  ⟨((c6_overdue_query c6S c6AsOf).2.2.1 _).mpr
      ⟨by decide, Or.inl (by decide), by decide⟩,
    fun hmem => (c6_overdue_query c6S c6AsOf).2.2.2.1 _ hmem (by decide),
    (c6_overdue_query c6S c6AsOf).2.2.2.2 ⟨2024, 1, 19⟩ ⟨2024, 1, 20⟩
      (by decide) (by decide) (by decide) (by decide) (by decide)
      (by decide)⟩

/-- C8: `delete_task` always runs reminder cancellation for the three job
keys before touching the store (the resulting job registry is the
cancellation of the original one, whatever the store outcome); an absent
job key is ignored and the cancellation never raises; cancelling twice is a
no-op the second time; and deleting an id absent from the store signals
not-found (the `False` result the manager maps not-found to) while the
cancellation still ran. -/
theorem c8_delete_cancels_reminders :
    (∀ (s : Mstate) (id : Nat),
      (deleteTask id s).2.jobs = cancelTaskReminders s.jobs id) ∧
    (∀ (js : List String) (k : String), js.contains k = false →
      cancelJob js k = js) ∧
    (∀ (js : List String) (id : Nat), js.Nodup →
      cancelTaskReminders (cancelTaskReminders js id) id =
        cancelTaskReminders js id) ∧
    (∀ (s : Mstate) (id : Nat), findDoc s.store id = none →
      (deleteTask id s).1 = false ∧
      (deleteTask id s).2.jobs = cancelTaskReminders s.jobs id) := by
  have habsent : ∀ (js : List String) (k : String), js.contains k = false →
      cancelJob js k = js := by
    intro js k h
    have h2 : ¬ k ∈ js := by simpa using h
    simp [cancelJob, removeJob, h2]
  have herase : ∀ (js : List String) (k : String), cancelJob js k = js.erase k := by
    intro js k
    by_cases h : k ∈ js
    · simp [cancelJob, removeJob, h]
    · rw [habsent js k (by simpa using h), List.erase_of_not_mem h]
  refine ⟨fun s id => rfl, habsent, ?_, ?_⟩
  · intro js id hnd
    simp only [cancelTaskReminders, reminderJobIds, List.foldl_cons,
      List.foldl_nil, herase]
    set k1 := "reminder_1day_" ++ toString id with hk1
    set k2 := "reminder_deadline_" ++ toString id with hk2
    set k3 := "overdue_check_" ++ toString id with hk3
    have hnd1 : (js.erase k1).Nodup := hnd.erase k1
    have hnd2 : ((js.erase k1).erase k2).Nodup := hnd1.erase k2
    have hm1 : k1 ∉ ((js.erase k1).erase k2).erase k3 := by
      intro hmem
      have := List.mem_of_mem_erase (List.mem_of_mem_erase hmem)
      exact absurd ((hnd.mem_erase_iff).mp this).1 (by simp)
    have hm2 : k2 ∉ ((js.erase k1).erase k2).erase k3 := by
      intro hmem
      have := List.mem_of_mem_erase hmem
      exact absurd ((hnd1.mem_erase_iff).mp this).1 (by simp)
    have hm3 : k3 ∉ ((js.erase k1).erase k2).erase k3 := by
      intro hmem
      exact absurd ((hnd2.mem_erase_iff).mp hmem).1 (by simp)
    rw [List.erase_of_not_mem hm1, List.erase_of_not_mem hm2,
      List.erase_of_not_mem hm3]
  · intro s id h
    have hf : s.store.docs.find? (fun p => p.1 == id) = none := by
      unfold findDoc at h
      exact Option.map_eq_none'.mp h
    constructor
    · simp [deleteTask, deleteOne, hf]
    · rfl

/-- C8 witness: the theorem's parts at concrete inputs — a registry holding
the three keys for task 0 plus an unrelated key, an absent key, and a
delete of an id missing from an empty store. -/
theorem c8_delete_cancels_reminders_witness :
    ((deleteTask 3 ⟨emptyStore, ["other_job"]⟩).2.jobs =
      cancelTaskReminders ["other_job"] 3) ∧
    (cancelJob ["other_job"] "reminder_1day_7" = ["other_job"]) ∧
    (cancelTaskReminders
        (cancelTaskReminders (reminderJobIds 0 ++ ["other_job"]) 0) 0 =
      cancelTaskReminders (reminderJobIds 0 ++ ["other_job"]) 0) ∧
    ((deleteTask 5 ⟨emptyStore, reminderJobIds 5⟩).1 = false ∧
      (deleteTask 5 ⟨emptyStore, reminderJobIds 5⟩).2.jobs =
        cancelTaskReminders (reminderJobIds 5) 5) :=
  ⟨c8_delete_cancels_reminders.1 _ 3,
    c8_delete_cancels_reminders.2.1 _ _ (by decide),
    c8_delete_cancels_reminders.2.2.1 _ 0 (by decide),
    c8_delete_cancels_reminders.2.2.2 _ 5 (by decide)⟩

/-- C10 counterexample: `update_task` injects `updated_at := utcnow()` into
every patch, so re-marking an already-completed task completed at a later
instant modifies the stored document and returns `True`, where the claim
says such a no-change patch returns `False`. -/
theorem c10_counterexample :
    ((findDoc (run c10Ops).store 0).map (fun d => d.status) =
      some "completed") ∧
    (markTaskCompleted 0 c1T2 (run c10Ops)).1 = true := by
  decide

/-- C10 (amended): `update_task` returns `True` exactly when the task
exists and the patch together with the injected `updated_at := utcnow()`
changes at least one stored field; since the injected timestamp differs
from the stored one whenever time has advanced, re-marking a completed task
completed returns `True` rather than `False`.  When it returns `False`,
the state — scheduler jobs included — is unchanged, so reminder
rescheduling is skipped even when `actual_deadline` is part of the patch. -/
theorem c10_update_modified :
    (∀ (s : Mstate) (id : Nat) (patch : Patch) (now : DateTime),
      ((updateTask id patch now s).1 = true ↔
        ∃ d, findDoc s.store id = some d ∧
          applyPatch d { patch with updated_at := some now } ≠ d)) ∧
    (∀ (s : Mstate) (id : Nat) (patch : Patch) (now : DateTime),
      (updateTask id patch now s).1 = false →
        (updateTask id patch now s).2 = s) ∧
    (∀ (s : Mstate) (id : Nat) (d : TaskDoc) (now : DateTime),
      findDoc s.store id = some d → d.status = "completed" →
        d.updated_at ≠ now → (markTaskCompleted id now s).1 = true) := by
  have key : ∀ (s : Mstate) (id : Nat) (patch : Patch) (now : DateTime),
      ((updateTask id patch now s).1 = true ↔
        ∃ d, findDoc s.store id = some d ∧
          applyPatch d { patch with updated_at := some now } ≠ d) := by
    intro s id patch now
    unfold updateTask updateOne findDoc
    cases hf : s.store.docs.find? (fun q => q.1 == id) with
    | none => simp
    | some q =>
        by_cases hch : applyPatch q.2 { patch with updated_at := some now } == q.2
        · simp only [hf, hch]
          simp only [beq_iff_eq] at hch
          simp [hch]
        · simp only [hf, hch]
          simp only [beq_iff_eq] at hch
          simp only [Bool.false_eq_true, if_false]
          simp [hch]
  refine ⟨key, ?_, ?_⟩
  · intro s id patch now h
    unfold updateTask updateOne at h ⊢
    cases hf : s.store.docs.find? (fun q => q.1 == id) with
    | none => simp [hf]
    | some q =>
        by_cases hch : applyPatch q.2 { patch with updated_at := some now } == q.2
        · simp [hf, hch]
        · simp only [hf, hch] at h
          simp at h
  · intro s id d now hfind hst hne
    refine (key s id _ now).mpr ⟨d, hfind, ?_⟩
    intro hEq
    exact hne (by
      have := congrArg TaskDoc.updated_at hEq
      simpa [applyPatch] using this.symm)

/-- C10 witness: the amended theorem at concrete inputs — re-completing the
completed task of `c10Ops` at a later instant returns `True`, and an update
on an id absent from the empty state returns `False` and leaves the state
unchanged. -/
theorem c10_update_modified_witness :
    (markTaskCompleted 0 c1T2 (run c10Ops)).1 = true ∧
    (updateTask 9 emptyPatch c1T2 initState).2 = initState :=
  ⟨c10_update_modified.2.2 (run c10Ops) 0
      (applyPatch (builtDoc c1Item none c1T0)
        ⟨some "completed", none, some c1T1⟩) c1T2 (by decide) (by decide)
      (by decide),
    c10_update_modified.2.1 initState 9 emptyPatch c1T2 (by decide)⟩

/-- Every manager operation whose status patch stays inside the status enum
preserves well-formedness of stored statuses. -/
theorem wfStatus_applyOp (s : Mstate) (op : Op) (hv : opValid op)
    (hwf : wfStatus s) : wfStatus (applyOp s op) := by
  have hupd : ∀ (id : Nat) (patch : Patch) (now : DateTime),
      statusValid patch.status → wfStatus (updateTask id patch now s).2 := by
    intro id patch now hval
    unfold updateTask updateOne
    cases hf : s.store.docs.find? (fun q => q.1 == id) with
    | none => exact hwf
    | some q =>
        by_cases hch : applyPatch q.2 { patch with updated_at := some now } == q.2
        · simp only [hf, hch]
          exact hwf
        · simp only [hf, hch, Bool.false_eq_true, if_false]
          have hq := hwf q (List.mem_of_find?_eq_some hf)
          intro p hp
          rw [if_pos Nat.zero_lt_one] at hp
          simp only [List.mem_map] at hp
          obtain ⟨r, hr, hpr⟩ := hp
          by_cases hid : r.1 == id
          · rw [if_pos hid] at hpr
            subst hpr
            simp only [applyPatch]
            rcases hval with hn | hv1 | hv1 | hv1
            · rw [hn]
              exact hq
            all_goals rw [hv1]; simp
          · rw [if_neg hid] at hpr
            subst hpr
            exact hwf r hr
  cases op with
  | create item meetingId now =>
      show wfStatus (createTask item meetingId now s).2
      unfold createTask
      by_cases hc : pyStrip (item.task.getD "") == ""
      · rw [if_pos hc]
        exact hwf
      · rw [if_neg hc]
        intro p hp
        simp only [insertOne, List.mem_append, List.mem_singleton] at hp
        rcases hp with hp | hp
        · exact hwf p hp
        · rw [hp]
          left
          rfl
  | update id patch now => exact hupd id patch now hv
  | markInProgress id now =>
      exact hupd id { emptyPatch with status := some "in_progress" } now
        (Or.inr (Or.inr (Or.inl rfl)))
  | markCompleted id now =>
      exact hupd id { emptyPatch with status := some "completed" } now
        (Or.inr (Or.inr (Or.inr rfl)))
  | delete id =>
      show wfStatus (deleteTask id s).2
      unfold deleteTask deleteOne
      by_cases hf : (s.store.docs.find? (fun p => p.1 == id)).isSome
      · rw [if_pos hf]
        intro p hp
        exact hwf p ((List.eraseP_sublist _).mem hp)
      · rw [if_neg hf]
        exact hwf

/-- Any status-valid operation sequence leads to a status-well-formed
state. -/
theorem wfStatus_run (ops : List Op) (hv : ∀ op ∈ ops, opValid op) :
    wfStatus (run ops) := by
  have general : ∀ (l : List Op) (s : Mstate), (∀ op ∈ l, opValid op) →
      wfStatus s → wfStatus (l.foldl applyOp s) := by
    intro l
    induction l with
    | nil => exact fun s _ h => h
    | cons op rest ih =>
        intro s hl hs
        exact ih _ (fun o ho => hl o (List.mem_cons_of_mem _ ho))
          (wfStatus_applyOp s op (hl op (List.mem_cons_self _ _)) hs)
  exact general ops initState hv (fun p hp => absurd hp (List.not_mem_nil p))

/-- A status-well-formed document list splits its length over the three
status classes. -/
theorem length_eq_three_counts (docs : List (Nat × TaskDoc))
    (h : ∀ p ∈ docs, p.2.status = "pending" ∨ p.2.status = "in_progress" ∨
      p.2.status = "completed") :
    docs.length =
      (docs.filter (fun p => p.2.status == "pending")).length +
      (docs.filter (fun p => p.2.status == "in_progress")).length +
      (docs.filter (fun p => p.2.status == "completed")).length := by
  induction docs with
  | nil => rfl
  | cons p rest ih =>
      have hp := h p (List.mem_cons_self _ _)
      have hrest := ih (fun q hq => h q (List.mem_cons_of_mem _ hq))
      rcases hp with hs | hs | hs <;>
        simp only [List.filter_cons, hs] <;> simp <;> omega

/-- C4 counterexample: `update_task` accepts a status outside the enum;
after creating one task and patching its status to `"cancelled"` — both
operations of the manager's own interface — the statistics report one total
task but zero pending, in-progress and completed tasks. -/
theorem c4_counterexample :
    (getTaskStatistics (run c4Ops) c1T2).total_tasks ≠
      (getTaskStatistics (run c4Ops) c1T2).pending_tasks +
      (getTaskStatistics (run c4Ops) c1T2).in_progress_tasks +
      (getTaskStatistics (run c4Ops) c1T2).completed_tasks := by
  decide

/-- C4 (amended): for every population reachable through the manager's
operations whose `update_task` patches keep the status inside the enum
{pending, in_progress, completed} (`create_task`, `mark_task_in_progress`
and `mark_task_completed` always do), `get_task_statistics` satisfies
`total = pending + in_progress + completed`; on the empty store every count
is zero.  An `update_task` patch carrying a status outside the enum breaks
the equation (see the counterexample). -/
theorem c4_statistics_consistent :
    (∀ ops : List Op, (∀ op ∈ ops, opValid op) → ∀ now : DateTime,
      (getTaskStatistics (run ops) now).total_tasks =
        (getTaskStatistics (run ops) now).pending_tasks +
        (getTaskStatistics (run ops) now).in_progress_tasks +
        (getTaskStatistics (run ops) now).completed_tasks) ∧
    (∀ now : DateTime, getTaskStatistics initState now =
      ⟨0, 0, 0, 0, 0, 0⟩) := by
  constructor
  · intro ops hv now
    have hwf := wfStatus_run ops hv
    have hc := length_eq_three_counts (run ops).store.docs hwf
    simpa [getTaskStatistics, countDocs] using hc
  · intro now
    rfl

/-- C4 witness: the consistency equation at the concrete two-operation run
of `c10Ops` (a creation and a completion). -/
theorem c4_statistics_consistent_witness :
    (getTaskStatistics (run c10Ops) c1T2).total_tasks =
      (getTaskStatistics (run c10Ops) c1T2).pending_tasks +
      (getTaskStatistics (run c10Ops) c1T2).in_progress_tasks +
      (getTaskStatistics (run c10Ops) c1T2).completed_tasks :=
  c4_statistics_consistent.1 c10Ops
    (by
      intro op hop
      simp only [c10Ops, List.mem_cons, List.not_mem_nil, or_false] at hop
      rcases hop with rfl | rfl <;> trivial)
    c1T2

/-- The overdue query is empty when no stored task has an open status,
whatever the query date. -/
theorem overdueQuery_nil_of_closed (st : Store) (today : String)
    (h : ∀ p ∈ st.docs,
      (p.2.status == "pending" || p.2.status == "in_progress") = false) :
    overdueQuery st today = [] := by
  unfold overdueQuery
  have hf : st.docs.filter (overduePred today) = [] := by
    rw [List.filter_eq_nil_iff]
    intro p hp
    unfold overduePred
    rw [h p hp]
    simp
  rw [hf]
  rfl

/-- C1: end-to-end scenario — a task created with no deadline fields at
2024-01-15 receives `actual_deadline = "2024-01-22"` and id 0;
`mark_task_in_progress` and then `mark_task_completed` on that id succeed;
afterwards `get_overdue_tasks` never includes it at any instant, its status
being `completed`. -/
theorem c1_end_to_end :
    (createTask c1Item none c1T0 initState).1 = Except.ok 0 ∧
    (findDoc c1S1.store 0).map (fun d => d.actual_deadline) =
      some "2024-01-22" ∧
    (markTaskInProgress 0 c1T1 c1S1).1 = true ∧
    (markTaskCompleted 0 c1T2 c1S2).1 = true ∧
    ∀ now : DateTime, getOverdueTasks c1S3 now = [] := by
  refine ⟨rfl, by decide, by decide, by decide, ?_⟩
  intro now
  exact overdueQuery_nil_of_closed _ _ (by decide)

/-- C1 witness: the universally quantified part applied at a concrete
later date. -/
theorem c1_end_to_end_witness :
    getOverdueTasks c1S3 ⟨⟨2031, 12, 31⟩, 0⟩ = [] :=
  c1_end_to_end.2.2.2.2 ⟨⟨2031, 12, 31⟩, 0⟩

/-- A prefix test on character lists is exactly the existence of a
remainder. -/
theorem startsWithChars_iff : ∀ needle hay : List Char,
    startsWithChars needle hay = true ↔ ∃ q, hay = needle ++ q := by
  intro needle
  induction needle with
  | nil =>
      intro hay
      simp [startsWithChars]
  | cons a as ih =>
      intro hay
      cases hay with
      | nil =>
          simp [startsWithChars]
      | cons b bs =>
          simp only [startsWithChars, Bool.and_eq_true, beq_iff_eq, ih,
            List.cons_append, List.cons.injEq]
          constructor
          · rintro ⟨rfl, q, rfl⟩
            exact ⟨q, rfl, rfl⟩
          · rintro ⟨q, rfl, rfl⟩
            exact ⟨rfl, q, rfl⟩

/-- The substring test on character lists is exactly the existence of a
decomposition. -/
theorem hasSubChars_iff : ∀ hay needle : List Char,
    hasSubChars needle hay = true ↔ ∃ p q, hay = p ++ needle ++ q := by
  intro hay
  induction hay with
  | nil =>
      intro needle
      cases needle with
      | nil =>
          simp [hasSubChars, startsWithChars]
      | cons a as =>
          simp [hasSubChars, startsWithChars]
  | cons c cs ih =>
      intro needle
      simp only [hasSubChars, Bool.or_eq_true, startsWithChars_iff, ih]
      constructor
      · rintro (⟨q, hq⟩ | ⟨p, q, hpq⟩)
        · exact ⟨[], q, by simpa using hq⟩
        · exact ⟨c :: p, q, by simp [hpq]⟩
      · rintro ⟨p, q, hpq⟩
        cases p with
        | nil =>
            left
            exact ⟨q, by simpa using hpq⟩
        | cons x p1 =>
            right
            simp only [List.cons_append, List.cons.injEq] at hpq
            exact ⟨p1, q, hpq.2⟩

/-- The Boolean keyword scan agrees with the spec-side occurrence
predicate. -/
theorem anyKeyword_iff (t : String) (ks : List String) :
    (ks.any (fun k => strHasSub (pyLower t) k) = true) ↔
      ∃ k ∈ ks, containsKeyword t k := by
  rw [List.any_eq_true]
  constructor
  · rintro ⟨k, hk, hs⟩
    exact ⟨k, hk, (hasSubChars_iff _ _).mp hs⟩
  · rintro ⟨k, hk, hc⟩
    exact ⟨k, hk, (hasSubChars_iff _ _).mpr hc⟩

/-- C7: the deadline heuristic is a pure function of the task text and the
current date: an urgent keyword occurring case-insensitively gives current
date + 1 day, else a medium keyword gives + 3 days, else + 7 days, each
formatted `YYYY-MM-DD`; the urgent check takes priority over the medium
one. -/
theorem c7_suggest_deadline (t : String) (d : Date) :
    ((∃ k ∈ urgentKeywords, containsKeyword t k) →
      suggestDeadline t d = (d.addDays 1).format) ∧
    ((¬ ∃ k ∈ urgentKeywords, containsKeyword t k) →
      (∃ k ∈ mediumKeywords, containsKeyword t k) →
      suggestDeadline t d = (d.addDays 3).format) ∧
    ((¬ ∃ k ∈ urgentKeywords, containsKeyword t k) →
      (¬ ∃ k ∈ mediumKeywords, containsKeyword t k) →
      suggestDeadline t d = (d.addDays 7).format) := by
  refine ⟨?_, ?_, ?_⟩
  · intro hu
    have hb := (anyKeyword_iff t urgentKeywords).mpr hu
    simp [suggestDeadline, hb]
  · intro hnu hm
    have hb1 : (urgentKeywords.any fun k => strHasSub (pyLower t) k) = false := by
      rw [← Bool.not_eq_true]
      exact fun hb => hnu ((anyKeyword_iff t urgentKeywords).mp hb)
    have hb2 := (anyKeyword_iff t mediumKeywords).mpr hm
    simp [suggestDeadline, hb1, hb2]
  · intro hnu hnm
    have hb1 : (urgentKeywords.any fun k => strHasSub (pyLower t) k) = false := by
      rw [← Bool.not_eq_true]
      exact fun hb => hnu ((anyKeyword_iff t urgentKeywords).mp hb)
    have hb2 : (mediumKeywords.any fun k => strHasSub (pyLower t) k) = false := by
      rw [← Bool.not_eq_true]
      exact fun hb => hnm ((anyKeyword_iff t mediumKeywords).mp hb)
    simp [suggestDeadline, hb1, hb2]

/-- C7 witness: the spec's three examples at current date 2024-01-15 —
a text containing `ASAP` maps to 2024-01-16, one containing `next week`
to 2024-01-18 and one with neither to 2024-01-22. -/
theorem c7_suggest_deadline_witness :
    suggestDeadline "Finish the slides ASAP" ⟨2024, 1, 15⟩ = "2024-01-16" ∧
    suggestDeadline "Plan for next week" ⟨2024, 1, 15⟩ = "2024-01-18" ∧
    suggestDeadline "Write the docs" ⟨2024, 1, 15⟩ = "2024-01-22" :=
  ⟨((c7_suggest_deadline _ _).1
      ⟨"asap", by decide,
        ⟨("finish the slides ").data, [], by decide⟩⟩).trans (by decide),
    ((c7_suggest_deadline _ _).2.1
      (by rw [← anyKeyword_iff]; decide)
      ⟨"next week", by decide,
        ⟨("plan for ").data, [], by decide⟩⟩).trans (by decide),
    ((c7_suggest_deadline _ _).2.2
      (by rw [← anyKeyword_iff]; decide)
      (by rw [← anyKeyword_iff]; decide)).trans (by decide)⟩

end MeetingTasks
